import Mathlib

/-!
Verification development for the Context Engine service manager
(`scripts/service_manager.py`): a shallow embedding of its session and
service lifecycle operations, together with theorems about the claims of
the specification.

Filesystem state is modelled explicitly (pid files, the active-session
directory, the archive tree, log files, the hook file, knowledge files).
External effects (signal delivery outcomes, process liveness probes,
subprocess results, clock readings) are supplied by environment records,
so each Python function becomes a pure Lean function of the state and the
environment.
-/

namespace ContextEngine

/-! ## Python string primitives -/

/-- Whitespace characters stripped by Python `str.strip()`. -/
def pyWhitespace (c : Char) : Bool :=
  c = ' ' || c = '\t' || c = '\n' || c = '\r' || c = '\x0b' || c = '\x0c'

/-- Python `str.strip()`: drop leading and trailing whitespace. -/
def pyStrip (s : String) : String :=
  ⟨(s.toList.dropWhile pyWhitespace).reverse.dropWhile pyWhitespace |>.reverse⟩

/-- Does the first list occur contiguously inside the second? -/
def occursIn (n : List Char) : List Char → Bool
  | [] => n.isEmpty
  | c :: cs => n.isPrefixOf (c :: cs) || occursIn n cs

/-- Python `needle in haystack` substring test. -/
def containsSub (needle haystack : String) : Bool :=
  occursIn needle.toList haystack.toList

/-- Python `s.startswith(p)`. -/
def strStartsWith (s p : String) : Bool :=
  p.toList.isPrefixOf s.toList

/-- Python `s.endswith(p)`. -/
def strEndsWith (s p : String) : Bool :=
  p.toList.reverse.isPrefixOf s.toList.reverse

/-- Split character data at newline separators. -/
def splitAtNl : List Char → List (List Char)
  | [] => [[]]
  | c :: cs =>
    match splitAtNl cs with
    | [] => [[]]
    | l :: ls => if c = '\n' then [] :: l :: ls else (c :: l) :: ls

/-- Rejoin split lines with newline separators (inverse of `splitAtNl`). -/
def joinNl : List (List Char) → List Char
  | [] => []
  | [l] => l
  | l :: ls => l ++ '\n' :: joinNl ls

/-- The literal `# Task:` of the session-name regex, 7 characters. -/
def taskHeader : List Char := ['#', ' ', 'T', 'a', 's', 'k', ':']

/-- The document text that follows `# Task:` on the first line starting
with it — the rest of the whole document, not just of that line, because
`\s*` in the regex can cross newlines. In MULTILINE mode `^# Task:` can
only match at a line start, candidates are tried left to right, and when
the first header line fails to complete a match everything after it is
newlines, so no later candidate can match either: the first header line
determines the whole search. -/
def restFromLines : List (List Char) → Option (List Char)
  | [] => none
  | l :: ls =>
    if taskHeader.isPrefixOf l then some (joinNl (l.drop 7 :: ls))
    else restFromLines ls

/-- The last character of a list that is not a newline, if any. -/
def lastNonNl (rest : List Char) : Option Char :=
  rest.foldl (fun acc c => if c ≠ '\n' then some c else acc) none

/-- Group 1 of `\s*(.+)$` matched at the start of `rest`: the greedy
`\s*` consumes the maximal whitespace prefix (newlines included) and
`(.+)` then captures the maximal non-newline run, which `$` always
closes; when `rest` is pure whitespace the star backtracks to the last
non-newline whitespace character, capturing just it, and with none the
match fails. -/
def taskGroup (rest : List Char) : Option (List Char) :=
  match rest.dropWhile pyWhitespace with
  | [] => (lastNonNl rest).map (fun c => [c])
  | c :: cs => some ((c :: cs).takeWhile (fun c2 => c2 ≠ '\n'))

/-- `re.search(r'^# Task:\s*(.+)$', content, re.MULTILINE).group(1)`:
`none` when there is no match. -/
def taskSearch (content : String) : Option String :=
  match restFromLines (splitAtNl content.toList) with
  | none => none
  | some rest => (taskGroup rest).map String.mk

/-- Python `s.replace(old, new)` for a single-character pattern (the only
form the source uses). -/
def replaceChar (s : String) (old new : Char) : String :=
  String.mk (s.toList.map (fun c => if c = old then new else c))

/-- Digit run of Python `int()`: digits optionally separated by single
underscores, accumulated into the value (`acc` holds digits read so far). -/
def pyDigits (acc : Nat) : List Char → Option Nat
  | [] => some acc
  | c :: cs =>
    if c.isDigit then pyDigits (acc * 10 + (c.toNat - 48)) cs
    else if c = '_' then
      match cs with
      | d :: cs2 => if d.isDigit then pyDigits (acc * 10 + (d.toNat - 48)) cs2 else none
      | [] => none
    else none

/-- Unsigned part of Python `int()`: a leading digit followed by a
`pyDigits` run; anything else is a `ValueError` (`none`). -/
def pyNat : List Char → Option Nat
  | c :: cs => if c.isDigit then pyDigits (c.toNat - 48) cs else none
  | [] => none

/-- Python `int(s)` on an already-stripped string: optional sign, then a
digit run; failure models the `ValueError`. -/
def pyInt (s : String) : Option Int :=
  match s.toList with
  | '+' :: cs => (pyNat cs).map (fun n => (n : Int))
  | '-' :: cs => (pyNat cs).map (fun n => -(n : Int))
  | cs => (pyNat cs).map (fun n => (n : Int))

/-! ## Filesystem state

`pids` maps a service name to the contents of `.pids/<service>.pid`;
the inner `Option` distinguishes a readable file (`some content`) from a
file whose read raises `IOError` (`none`). The active directory, archive
tree, logs and knowledge directory map names to contents. -/

structure FS where
  pids : List (String × Option String)
  active : List (String × String)
  archive : List (String × List (String × String))
  logs : List (String × String)
  hook : Option String
  knowledge : List (String × String)
  deriving Repr, DecidableEq

/-- Look up an association list by key (first match). -/
def lookupKey {α : Type} (l : List (String × α)) (k : String) : Option α :=
  match l with
  | [] => none
  | (k2, v) :: rest => if k2 = k then some v else lookupKey rest k

/-- Replace the value stored at a key (no-op when the key is absent). -/
def setKey {α : Type} (l : List (String × α)) (k : String) (v : α) :
    List (String × α) :=
  match l with
  | [] => []
  | (k2, w) :: rest => if k2 = k then (k2, v) :: rest else (k2, w) :: setKey rest k v

/-- Insert or overwrite a key (Python `write_text` semantics). -/
def putKey {α : Type} (l : List (String × α)) (k : String) (v : α) :
    List (String × α) :=
  match lookupKey l k with
  | some _ => setKey l k v
  | none => l ++ [(k, v)]

/-- Delete every entry stored under a key (`unlink`). -/
def dropKey {α : Type} (l : List (String × α)) (k : String) : List (String × α) :=
  l.filter (fun p => p.1 ≠ k)

/-! ## Pid registry (`read_pid` / `write_pid` / `remove_pid`) -/

/-- `read_pid`: when the pid file exists, read and parse it, turning
`IOError` (unreadable file) and `ValueError` (unparsable content) into
`none`; a missing file is also `none`. -/
def readPid (fs : FS) (service : String) : Option Int :=
  match lookupKey fs.pids service with
  | none => none
  | some none => none
  | some (some content) => pyInt (pyStrip content)

/-- `write_pid`: persist the integer as text, overwriting any prior value. -/
def writePid (fs : FS) (service : String) (pid : Int) : FS :=
  { fs with pids := putKey fs.pids service (some (toString pid)) }

/-- `remove_pid`: delete the pid file when it exists. -/
def removePid (fs : FS) (service : String) : FS :=
  { fs with pids := dropKey fs.pids service }

/-! ## Session state (`has_active_session` / `get_session_name`) -/

/-- Body of `has_active_session` on the marker contents: the document
counts as a real session when it mentions `# Task:` anywhere and does not
contain the template placeholder. -/
def hasActiveContent (content : String) : Bool :=
  containsSub "# Task:" content && !containsSub "[Your task name]" content

/-- `has_active_session`: the marker `active/task_plan.md` exists and its
contents pass `hasActiveContent`. -/
def hasActiveSession (fs : FS) : Bool :=
  match lookupKey fs.active "task_plan.md" with
  | none => false
  | some content => hasActiveContent content

/-- Body of `get_session_name` on the marker contents: the captured
group of the first `^# Task:\s*(.+)$` MULTILINE match is `.strip()`ped
and accepted only when nonempty and not the placeholder; no match, a
whitespace-only group, and the placeholder all yield `none`. Because
`\s*` crosses newlines, the captured name can come from a line after the
`# Task:` header line. -/
def sessionNameOfContent (content : String) : Option String :=
  match taskSearch content with
  | none => none
  | some g =>
    let name := pyStrip g
    if name ≠ "" && name ≠ "[Your task name]" then some name else none

/-- `get_session_name`: read the marker when present and extract the name. -/
def getSessionName (fs : FS) : Option String :=
  match lookupKey fs.active "task_plan.md" with
  | none => none
  | some content => sessionNameOfContent content

/-! ## Session creation (`create_auto_session`) -/

/-- Ambient inputs of `create_auto_session`: the git branch (absent when
the `git rev-parse` call fails or returns non-zero), the project name, the
clock readings, whether `init-session.sh` exists next to the script, and
the effect that running it has on the filesystem. -/
structure SessEnv where
  branch : Option String
  project : String
  dateCompact : String
  timestamp : String
  sessionIdSuffix : String
  initScriptExists : Bool
  initEff : FS → FS

/-- Name derivation of `create_auto_session`: branch (default `main`)
with `/` and `_` normalised to `-`; on `main`/`master` fall back to
`<project>-<date>`. -/
def deriveName (env : SessEnv) : String :=
  let branch := env.branch.getD "main"
  let sessionName := replaceChar (replaceChar branch '/' '-') '_' '-' 
  if sessionName = "main" || sessionName = "master" then
    env.project ++ "-" ++ env.dateCompact
  else sessionName

/-- The marker document `create_auto_session` writes in its fallback
branch (the f-string template, with its fixed scaffolding sections). -/
def markerText (env : SessEnv) (sessionName : String) : String :=
  "# Task: " ++ sessionName ++ "\n**Session ID:** sess_" ++ env.sessionIdSuffix ++
  "\n**Started:** " ++ env.timestamp ++
  "\n**Status:** 🔄 In Progress\n\n## Goal\nAuto-created session for branch: " ++
  env.branch.getD "main" ++
  "\n\n## Phases\n- [ ] Phase 1: Initial work\n\n## Files Created/Modified\n" ++
  "- [ ] (tracked automatically)\n\n## Live Error Log\n" ++
  "| Error | Attempt | Status | Solution | Knowledge Updated |\n" ++
  "|-------|---------|--------|----------|-------------------|\n\n" ++
  "## Next Steps\n1. Continue working on current task\n\n---\n" ++
  "*Auto-generated by Context Engine*\n"

/-- `create_auto_session`: derive the name, run `init-session.sh` when it
exists, then write the marker directly when it is still missing or still
holds the template placeholder; returns the derived name (the existing
marker is never consulted for its recorded name). -/
def createAutoSession (env : SessEnv) (fs : FS) : String × FS :=
  let sessionName := deriveName env
  let fs1 := if env.initScriptExists then env.initEff fs else fs
  let fs2 :=
    match lookupKey fs1.active "task_plan.md" with
    | some content =>
      if containsSub "[Your task name]" content then
        { fs1 with active := putKey fs1.active "task_plan.md" (markerText env sessionName) }
      else fs1
    | none =>
      { fs1 with active := putKey fs1.active "task_plan.md" (markerText env sessionName) }
  (sessionName, fs2)

/-! ## Archive workflow (`archive_session`) -/

/-- Is a file copied and then deleted by the fallback archive loops:
matched by the glob `*.md` and not a template? -/
def isArchivable (name : String) : Bool :=
  strEndsWith name ".md" && !strStartsWith name "TEMPLATE"

/-- Name of the dated archive destination directory,
`f"{date}_{session_name}"`; a `None` session name renders as the string
`"None"` exactly as the Python f-string does. -/
def destName (dateDashed : String) (sessionName : Option String) : String :=
  dateDashed ++ "_" ++ (match sessionName with | some n => n | none => "None")

/-- Append one copied file to an archive destination directory
(`shutil.copy(f, dest / f.name)`). -/
def copyToDest (fs : FS) (dest : String) (doc : String × String) : FS :=
  let cur := (lookupKey fs.archive dest).getD []
  { fs with archive := setKey fs.archive dest (cur ++ [doc]) }

/-- Delete one file from the active directory (`f.unlink()`). -/
def deleteActiveDoc (fs : FS) (name : String) : FS :=
  { fs with active := dropKey fs.active name }

/-- The copy loop (`for f in ACTIVE_DIR.glob('*.md'): ... shutil.copy`):
one intermediate state per copied document, plus the state it ends in;
the active directory is untouched throughout. -/
def copyPhase (dest : String) : List (String × String) → FS → List FS × FS
  | [], fs => ([], fs)
  | doc :: docs, fs =>
    let fs2 := copyToDest fs dest doc
    let rest := copyPhase dest docs fs2
    (fs2 :: rest.1, rest.2)

/-- The delete loop (`for f in ACTIVE_DIR.glob('*.md'): ... f.unlink()`):
one intermediate state per deleted document, plus the state it ends in;
the archive tree is untouched throughout. -/
def deletePhase : List (String × String) → FS → List FS × FS
  | [], fs => ([], fs)
  | doc :: docs, fs =>
    let fs2 := deleteActiveDoc fs doc.1
    let rest := deletePhase docs fs2
    (fs2 :: rest.1, rest.2)

/-- The non-template markdown documents of the active directory, the ones
the two fallback loops iterate over. -/
def archivableDocs (fs : FS) : List (String × String) :=
  fs.active.filter (fun p => isArchivable p.1)

/-- State after `dest.mkdir()`: a fresh empty destination directory. -/
def mkdirDest (fs : FS) (dest : String) : FS :=
  { fs with archive := fs.archive ++ [(dest, [])] }

/-- Every intermediate state of the fallback archive path for a given
destination name: the initial state, the state after `dest.mkdir()`, one
state per copied file, then one state per deleted file. When the
destination already exists the path does nothing and the only state is
the initial one. -/
def fallbackArchiveStates (fs : FS) (dest : String) : List FS :=
  if (lookupKey fs.archive dest).isSome then [fs]
  else
    let fs1 := mkdirDest fs dest
    let docs := archivableDocs fs
    let cp := copyPhase dest docs fs1
    fs :: fs1 :: (cp.1 ++ (deletePhase docs cp.2).1)

/-- Result and final state of the fallback archive path: `False` and no
change when the destination already exists, otherwise copy all
non-template markdown documents into the fresh destination, delete them
from the active directory, and report `True`. -/
def fallbackArchive (fs : FS) (dest : String) : Bool × FS :=
  if (lookupKey fs.archive dest).isSome then (false, fs)
  else
    let fs1 := mkdirDest fs dest
    let docs := archivableDocs fs
    (true, (deletePhase docs (copyPhase dest docs fs1).2).2)

/-- Ambient inputs of `archive_session`: the dashed date, whether
`archive-task.sh` exists, and its exit status when run. The session
summarizer step only reads files and prints to a captured pipe, so it has
no filesystem effect. -/
structure ArchEnv where
  dateDashed : String
  scriptExists : Bool
  scriptOk : Bool

/-- Effect of a successful `archive-task.sh` run.
Modelled from the spec: `archive-task.sh` is not part of the Python
sources; its contract is to perform steps (b)(c)(d) of the archive
workflow — build the dated directory, copy every non-template document
into it, delete them from the active directory. A failed run is modelled
as leaving the filesystem unchanged. -/
def archiveScriptEff (env : ArchEnv) (fs : FS) : FS :=
  (fallbackArchive fs (destName env.dateDashed (getSessionName fs))).2

/-- `archive_session`: no-op returning `False` without an active session;
otherwise run the summarizer (read-only), then the archive script when
present — on its success report `True`, on its failure fall back to the
in-process copy-then-delete, which itself reports `False` when the dated
destination already exists. With no script on disk the function reaches
its final `return False` without archiving anything. -/
def archiveSession (env : ArchEnv) (fs : FS) : Bool × FS :=
  if !hasActiveSession fs then (false, fs)
  else if env.scriptExists then
    if env.scriptOk then (true, archiveScriptEff env fs)
    else fallbackArchive fs (destName env.dateDashed (getSessionName fs))
  else (false, fs)

/-! ## Service management (`start_service` / `stop_service`) -/

/-- Static configuration of a declared service (the `SERVICES` dict entry;
the spawn command itself acts through the environment). -/
structure Config where
  displayName : String
  port : Option Nat
  deriving Repr, DecidableEq

/-- The declared services, in dict insertion order. -/
def services : List (String × Config) :=
  [("web_ui", { displayName := "Web UI", port := some 8765 }),
   ("file_watcher", { displayName := "File Watcher", port := none })]

/-- OS-visible effects of one `stop_service` call: liveness probes
(`os.kill(pid, 0)` inside `is_running`), the graceful and forceful
signals, and the fixed 0.1 s sleeps of the poll loop. -/
inductive Ev
  | probe (pid : Int)
  | sigterm (pid : Int)
  | sigkill (pid : Int)
  | sleep100ms
  deriving Repr, DecidableEq

/-- Outcomes the OS supplies to one `stop_service` call: the result of
the k-th liveness probe of this call, and whether each signal raises
`OSError`. -/
structure SigEnv where
  alive : Nat → Bool
  termRaises : Bool
  killRaises : Bool

/-- The poll loop of `stop_service` (`for _ in range(10)`), probing at
probe index `k` with `fuel` iterations left: returns the events of the
loop and whether it exited via `break` (process observed dead). Each
probe that still finds the process alive is followed by a 0.1 s sleep. -/
def pollLoop (env : SigEnv) (pid : Int) : Nat → Nat → List Ev × Bool
  | 0, _ => ([], false)
  | fuel + 1, k =>
    if env.alive k then
      let rest := pollLoop env pid fuel (k + 1)
      (Ev.probe pid :: Ev.sleep100ms :: rest.1, rest.2)
    else (Ev.probe pid :: [], true)

/-- `stop_service`: with no usable pid record (absent, unreadable,
unparsable, or the falsy pid 0) remove the record and succeed without
touching any process; with a dead pid remove the record and succeed after
the single guard probe; otherwise send SIGTERM, poll up to ten times,
escalate to SIGKILL only when all ten polls still saw the process alive,
and remove the pid record on every path — also when SIGTERM or SIGKILL
raises `OSError`, in which case the result is failure. -/
def stopService (env : SigEnv) (fs : FS) (service : String) :
    Bool × FS × List Ev :=
  match readPid fs service with
  | none => (true, removePid fs service, [])
  | some pid =>
    if pid = 0 then (true, removePid fs service, [])
    else if !env.alive 0 then (true, removePid fs service, [Ev.probe pid])
    else if env.termRaises then
      (false, removePid fs service, [Ev.probe pid, Ev.sigterm pid])
    else
      let polled := pollLoop env pid 10 1
      let evs := Ev.probe pid :: Ev.sigterm pid :: polled.1
      if polled.2 then (true, removePid fs service, evs)
      else if env.killRaises then
        (false, removePid fs service, evs ++ [Ev.sigkill pid])
      else (true, removePid fs service, evs ++ [Ev.sigkill pid])

/-- Outcomes the OS supplies to one `start_service` call: liveness of a
pre-existing recorded pid, whether the configured port is busy, whether
opening the log or spawning raises, the spawned pid, and its liveness
after the 0.5 s settle window. -/
structure StartEnv where
  existingAlive : Bool
  portBusy : Bool
  spawnRaises : Bool
  spawnedPid : Int
  spawnedAlive : Bool

/-- `start_service`: report success at once when the recorded pid is
truthy and alive; otherwise (after best-effort port freeing, which
touches no persisted file) truncate the log, spawn, persist the spawned
pid, and after the settle window report success exactly when the new
process is still alive — the freshly written pid record is kept even when
the process is found dead. A spawn failure reports failure with no pid
write. -/
def startService (env : StartEnv) (fs : FS) (service : String)
    (cfg : Config) : Bool × FS :=
  match readPid fs service with
  | some pid =>
    if pid ≠ 0 && env.existingAlive then (true, fs)
    else startSpawn env fs service
  | none => startSpawn env fs service
where
  /-- The spawn half of `start_service`, shared by the no-record and
  dead-record paths. -/
  startSpawn (env : StartEnv) (fs : FS) (service : String) : Bool × FS :=
    if env.spawnRaises then (false, fs)
    else
      let fs1 := { fs with logs := putKey fs.logs service "" }
      let fs2 := writePid fs1 service env.spawnedPid
      (env.spawnedAlive, fs2)

/-! ## Persisted-file operations of `status` -/

/-- One persisted-filesystem operation, as performed by the commands.
Read operations never change the state; the mutating constructors mirror
the write helpers. -/
inductive Op
  | readActive (name : String)
  | readPidFile (s : String)
  | probeOp (pid : Int)
  | portCheck (port : Nat)
  | readKnowledge (name : String)
  | writePidFile (s : String) (v : String)
  | removePidFile (s : String)
  | writeActive (name : String) (content : String)
  deriving Repr, DecidableEq

/-- Does the operation mutate the persisted filesystem? -/
def Op.mutates : Op → Bool
  | .writePidFile _ _ => true
  | .removePidFile _ => true
  | .writeActive _ _ => true
  | _ => false

/-- State effect of one operation. -/
def applyOp (fs : FS) : Op → FS
  | .writePidFile s v => { fs with pids := putKey fs.pids s (some v) }
  | .removePidFile s => removePid fs s
  | .writeActive n c => { fs with active := putKey fs.active n c }
  | _ => fs

/-- State effect of a sequence of operations. -/
def applyOps (fs : FS) : List Op → FS
  | [] => fs
  | op :: ops => applyOps (applyOp fs op) ops

/-- Probe results available to `status` (`is_running` per recorded pid). -/
structure StatusEnv where
  alive : Int → Bool

/-- Operations of the per-service loop of `status`: read the pid file,
and probe the process only when a truthy pid was parsed (short-circuit of
`pid and is_running(pid)`). -/
def serviceStatusOps (fs : FS) (s : String) : List Op :=
  Op.readPidFile s ::
    (match readPid fs s with
     | some pid => if pid ≠ 0 then [Op.probeOp pid] else []
     | none => [])

/-- Is the service reported running by `status`? -/
def serviceRunning (env : StatusEnv) (fs : FS) (s : String) : Bool :=
  match readPid fs s with
  | some pid => pid ≠ 0 && env.alive pid
  | none => false

/-- The knowledge files `status` enumerates. -/
def knowledgeFiles : List String :=
  ["patterns.md", "failures.md", "decisions.md", "gotchas.md"]

/-- Every persisted-file operation performed by one `status()` run, in
program order: the session check (and the name lookup when a session is
active), the per-service pid reads and probes, the port check when some
service is running, and one read per existing knowledge file. -/
def statusOps (env : StatusEnv) (fs : FS) : List Op :=
  Op.readActive "task_plan.md" ::
  ((if hasActiveSession fs then [Op.readActive "task_plan.md"] else []) ++
   (services.flatMap (fun p => serviceStatusOps fs p.1)) ++
   (if services.any (fun p => serviceRunning env fs p.1) then
      [Op.portCheck 8765] else []) ++
   (knowledgeFiles.flatMap (fun f =>
      if (lookupKey fs.knowledge f).isSome then [Op.readKnowledge f] else [])))

/-! ## Orchestrator (`activate` / `deactivate` / `main`) -/

/-- Start every declared service in order, threading the filesystem and
collecting each outcome (the `all_started` loop of `activate`). -/
def runStarts (envs : String → StartEnv) : List (String × Config) → FS →
    List Bool × FS
  | [], fs => ([], fs)
  | (s, cfg) :: rest, fs =>
    let r := startService (envs s) fs s cfg
    let rs := runStarts envs rest r.2
    (r.1 :: rs.1, rs.2)

/-- Environment of one orchestrator invocation. `hookEff` is the effect
of `setup_hooks` on the filesystem (in the source it writes one hook
script and its result value is discarded). -/
structure OrchEnv where
  sess : SessEnv
  startEnvs : String → StartEnv
  stopEnvs : String → SigEnv
  arch : ArchEnv
  hookEff : FS → FS

/-- `activate`: ensure a session (confirm the active one, or create one),
start every declared service collecting outcomes, then set up hooks;
overall success is exactly that every service start reported success —
the hook step runs after the outcomes are fixed and its result is never
consulted. -/
def activateRun (env : OrchEnv) (fs : FS) : Bool × FS :=
  let fs1 := if hasActiveSession fs then fs else (createAutoSession env.sess fs).2
  let started := runStarts env.startEnvs services fs1
  let fs2 := env.hookEff started.2
  (started.1.all id, fs2)

/-- Stop every declared service in order, threading the filesystem. -/
def runStops (envs : String → SigEnv) : List (String × Config) → FS → FS
  | [], fs => fs
  | (s, _) :: rest, fs => runStops envs rest (stopService (envs s) fs s).2.1

/-- `deactivate`: archive when a session is active (result discarded),
then unconditionally stop every declared service. -/
def deactivateRun (env : OrchEnv) (fs : FS) : FS :=
  let fs1 := if hasActiveSession fs then (archiveSession env.arch fs).2 else fs
  runStops env.stopEnvs services fs1

/-- The command-line verbs `main` dispatches on. -/
inductive Cmd
  | activate
  | deactivate
  | status
  | unknown
  deriving Repr, DecidableEq

/-- Process exit code of `main`: `activate` exits 0 exactly when every
service start succeeded and 1 otherwise; `deactivate` and `status` never
call `sys.exit`, so the interpreter exits 0; an unknown verb exits 1. -/
def mainExit (cmd : Cmd) (env : OrchEnv) (fs : FS) : Nat :=
  match cmd with
  | .activate => if (activateRun env fs).1 then 0 else 1
  | .deactivate => 0
  | .status => 0
  | .unknown => 1

/-! ## Derived definitions used by the theorems -/

/-- Events of `n` poll iterations that all find the process alive: a
liveness probe followed by the fixed 0.1 s sleep, `n` times. -/
def alivePolls (pid : Int) : Nat → List Ev
  | 0 => []
  | n + 1 => Ev.probe pid :: Ev.sleep100ms :: alivePolls pid n

/-- The per-service start outcomes of one `activate` run, in declaration
order. -/
def startResults (env : OrchEnv) (fs : FS) : List Bool :=
  (runStarts env.startEnvs services
    (if hasActiveSession fs then fs else (createAutoSession env.sess fs).2)).1

/-! ## Concrete sample states and environments -/

/-- The empty filesystem. -/
def fsEmpty : FS :=
  { pids := [], active := [], archive := [], logs := [], hook := none,
    knowledge := [] }

/-- A filesystem whose only content is a pid record `123` for `web_ui`. -/
def fsStopW : FS := { fsEmpty with pids := [("web_ui", some "123")] }

/-- Signal environment of a process that ignores SIGTERM: every liveness
probe reports alive and no signal raises. -/
def stopEnvW : SigEnv :=
  { alive := fun _ => true, termRaises := false, killRaises := false }

/-- Pid files exercising every `read_pid` case: parsable, unparsable,
unreadable — and a missing one under any other name. -/
def fsPidW : FS :=
  { fsEmpty with pids := [("a", some " 42 "), ("b", some "x12"), ("c", none)] }

/-- A start whose spawn succeeds with pid 4242 but whose process is found
dead after the settle window. -/
def startDeadEnv : StartEnv :=
  { existingAlive := false, portBusy := false, spawnRaises := false,
    spawnedPid := 4242, spawnedAlive := false }

/-- The configuration of the `web_ui` service. -/
def cfgWeb : Config := { displayName := "Web UI", port := some 8765 }

/-- Session environment on branch `beta` with no init script on disk. -/
def sessEnvC1 : SessEnv :=
  { branch := some "beta", project := "proj", dateCompact := "20261012",
    timestamp := "2026-10-12 00:00:00", sessionIdSuffix := "20261012_000000",
    initScriptExists := false, initEff := id }

/-- A well-formed marker recording the session name `alpha`. -/
def fsSessC1 : FS :=
  { fsEmpty with
    active := [("task_plan.md", "# Task: alpha\n**Session ID:** sess_x\n")] }

/-- A marker whose contents mention `# Task:` only mid-line: the session
counts as active, yet no name can be extracted. -/
def fsSessC9 : FS := { fsEmpty with active := [("task_plan.md", "x# Task: y")] }

/-- A filesystem with an active session named `alpha` and one archivable
document. -/
def fsArchW : FS :=
  { fsEmpty with active := [("plan.md", "c"), ("task_plan.md", "# Task: alpha\n")] }

/-- The fallback-archive state of `fsArchW` after both documents were
copied to destination `d` and before any delete: the crash point between
the copy loop and the delete loop. -/
def stArchW : FS :=
  { fsEmpty with
    active := [("plan.md", "c"), ("task_plan.md", "# Task: alpha\n")],
    archive := [("d", [("plan.md", "c"), ("task_plan.md", "# Task: alpha\n")])] }

/-- Archive environment for 2026-10-12 whose external script exists but
exits non-zero. -/
def archEnvW : ArchEnv :=
  { dateDashed := "2026-10-12", scriptExists := true, scriptOk := false }

/-- An active session named `alpha` whose dated archive destination for
2026-10-12 already exists. -/
def fsArch10 : FS :=
  { fsEmpty with
    active := [("task_plan.md", "# Task: alpha\n")],
    archive := [("2026-10-12_alpha", [])] }

/-- Status environment in which every probed pid is alive. -/
def envStatusW : StatusEnv := { alive := fun _ => true }

/-- A populated filesystem for exercising `status`: an active session, a
recorded pid, and one knowledge file. -/
def fsStatusW : FS :=
  { fsEmpty with
    pids := [("web_ui", some "123")],
    active := [("task_plan.md", "# Task: alpha\n")],
    knowledge := [("patterns.md", "x")] }

/-- A complete orchestrator environment built from the sample pieces. -/
def orchEnvW : OrchEnv :=
  { sess := sessEnvC1, startEnvs := fun _ => startDeadEnv,
    stopEnvs := fun _ => stopEnvW, arch := archEnvW, hookEff := id }

/-! ## Association-list lemmas -/

theorem lookupKey_dropKey {α : Type} (l : List (String × α)) (k : String) :
    lookupKey (dropKey l k) k = none := by
  induction l with
  | nil => rfl
  | cons p rest ih =>
    by_cases h : p.1 = k
    · simpa [dropKey, h] using ih
    · simpa [dropKey, lookupKey, h] using ih

theorem dropKey_eq_of_lookup_none {α : Type} (l : List (String × α)) (k : String)
    (h : lookupKey l k = none) : dropKey l k = l := by
  induction l with
  | nil => rfl
  | cons p rest ih =>
    cases p with
    | mk k2 v =>
      by_cases hp : k2 = k
      · simp [lookupKey, hp] at h
      · simp only [lookupKey, hp, if_neg] at h
        have hrest := ih h
        simp only [dropKey] at hrest ⊢
        simp only [List.filter_cons, hrest]
        simp [hp]

theorem lookupKey_setKey_of_some {α : Type} (l : List (String × α))
    (k : String) (v w : α) (h : lookupKey l k = some w) :
    lookupKey (setKey l k v) k = some v := by
  induction l with
  | nil => simp [lookupKey] at h
  | cons p rest ih =>
    cases p with
    | mk k2 u =>
      by_cases hp : k2 = k
      · simp [setKey, lookupKey, hp]
      · simp only [lookupKey, hp, if_neg] at h
        simp [setKey, lookupKey, hp, ih h]

theorem lookupKey_append_single {α : Type} (l : List (String × α))
    (k : String) (v : α) (h : lookupKey l k = none) :
    lookupKey (l ++ [(k, v)]) k = some v := by
  induction l with
  | nil => simp [lookupKey]
  | cons p rest ih =>
    cases p with
    | mk k2 u =>
      by_cases hp : k2 = k
      · simp [lookupKey, hp] at h
      · simp only [lookupKey, hp, if_neg] at h
        simp [lookupKey, hp, ih h]

theorem lookupKey_putKey_self {α : Type} (l : List (String × α))
    (k : String) (v : α) : lookupKey (putKey l k v) k = some v := by
  unfold putKey
  cases h : lookupKey l k with
  | none => simp [lookupKey_append_single l k v h]
  | some w => simp [lookupKey_setKey_of_some l k v w h]

theorem mem_dropKey {α : Type} (l : List (String × α)) (k : String)
    (doc : String × α) (hm : doc ∈ l) (hk : doc.1 ≠ k) : doc ∈ dropKey l k := by
  simp [dropKey, List.mem_filter, hm, hk]

/-! ## Archive-phase lemmas -/

theorem copyPhase_active (dest : String) (docs : List (String × String)) (g : FS) :
    ((copyPhase dest docs g).2).active = g.active ∧
    ∀ st ∈ (copyPhase dest docs g).1, st.active = g.active := by
  induction docs generalizing g with
  | nil => simp [copyPhase]
  | cons doc docs ih =>
    have h2 := ih (copyToDest g dest doc)
    have hcd : (copyToDest g dest doc).active = g.active := rfl
    refine ⟨?_, ?_⟩
    · simp only [copyPhase]
      rw [h2.1, hcd]
    · intro st hst
      simp only [copyPhase, List.mem_cons] at hst
      rcases hst with rfl | hst
      · exact hcd
      · rw [h2.2 st hst, hcd]

theorem deletePhase_archive (docs : List (String × String)) (g : FS) :
    ((deletePhase docs g).2).archive = g.archive ∧
    ∀ st ∈ (deletePhase docs g).1, st.archive = g.archive := by
  induction docs generalizing g with
  | nil => simp [deletePhase]
  | cons doc docs ih =>
    have h2 := ih (deleteActiveDoc g doc.1)
    have hcd : (deleteActiveDoc g doc.1).archive = g.archive := rfl
    refine ⟨?_, ?_⟩
    · simp only [deletePhase]
      rw [h2.1, hcd]
    · intro st hst
      simp only [deletePhase, List.mem_cons] at hst
      rcases hst with rfl | hst
      · exact hcd
      · rw [h2.2 st hst, hcd]

theorem copyToDest_lookup (g : FS) (dest : String) (d : String × String)
    (l : List (String × String)) (hl : lookupKey g.archive dest = some l) :
    lookupKey (copyToDest g dest d).archive dest = some (l ++ [d]) := by
  simp only [copyToDest, hl, Option.getD_some]
  exact lookupKey_setKey_of_some g.archive dest (l ++ [d]) l hl

theorem copyPhase_dest_mem (dest : String) (docs : List (String × String))
    (g : FS) (l : List (String × String))
    (hl : lookupKey g.archive dest = some l) (doc : String × String)
    (hdoc : doc ∈ l ∨ doc ∈ docs) :
    ∃ l2, lookupKey ((copyPhase dest docs g).2).archive dest = some l2 ∧
      doc ∈ l2 := by
  induction docs generalizing g l with
  | nil =>
    rcases hdoc with h | h
    · exact ⟨l, hl, h⟩
    · simp at h
  | cons d ds ih =>
    have hcd := copyToDest_lookup g dest d l hl
    refine ih (copyToDest g dest d) (l ++ [d]) hcd ?_
    rcases hdoc with h | h
    · exact Or.inl (List.mem_append_left _ h)
    · rcases List.mem_cons.mp h with rfl | h2
      · exact Or.inl (List.mem_append_right _ (List.mem_singleton.mpr rfl))
      · exact Or.inr h2

theorem mkdirDest_lookup (fs : FS) (dest : String)
    (h : lookupKey fs.archive dest = none) :
    lookupKey (mkdirDest fs dest).archive dest = some [] :=
  lookupKey_append_single fs.archive dest [] h

theorem deletePhase_keeps (docs : List (String × String)) (g : FS)
    (doc : String × String) (hm : doc ∈ g.active)
    (hk : ∀ d ∈ docs, d.1 ≠ doc.1) :
    (∀ st ∈ (deletePhase docs g).1, doc ∈ st.active) ∧
    doc ∈ ((deletePhase docs g).2).active := by
  induction docs generalizing g with
  | nil => simpa [deletePhase] using hm
  | cons d ds ih =>
    have hne : d.1 ≠ doc.1 := hk d (List.mem_cons_self d ds)
    have hm2 : doc ∈ (deleteActiveDoc g d.1).active :=
      mem_dropKey g.active d.1 doc hm (fun hdd => hne hdd.symm)
    have h2 := ih (deleteActiveDoc g d.1) hm2
      (fun e he => hk e (List.mem_cons_of_mem d he))
    refine ⟨?_, h2.2⟩
    intro st hst
    simp only [deletePhase, List.mem_cons] at hst
    rcases hst with rfl | hst
    · exact hm2
    · exact h2.1 st hst

/-! ## Claim theorems -/

/-- C2: archive never deletes an active-session document that has not
been copied: in every intermediate state of the fallback archive workflow
(initial state, after creating the destination, after each copy, after
each delete — in particular at the crash point between the copy loop and
the delete loop), every document of the active-session directory either
is still present in the active-session directory or has a copy in the
dated archive destination, so a crash mid-archive leaves documents
duplicated but never lost. -/
theorem archive_never_loses_documents (fs : FS) (dest : String) (st : FS)
    (hst : st ∈ fallbackArchiveStates fs dest)
    (doc : String × String) (hdoc : doc ∈ fs.active) :
    doc ∈ st.active ∨
      ∃ l, lookupKey st.archive dest = some l ∧ doc ∈ l := by
  unfold fallbackArchiveStates at hst
  cases hd : (lookupKey fs.archive dest).isSome with
  | true =>
    rw [if_pos (by simp [hd])] at hst
    rcases List.mem_singleton.mp hst with rfl
    exact Or.inl hdoc
  | false =>
    have hnone : lookupKey fs.archive dest = none := by
      cases h2 : lookupKey fs.archive dest with
      | none => rfl
      | some l => rw [h2] at hd; simp at hd
    rw [if_neg (by simp [hd])] at hst
    simp only [List.mem_cons, List.mem_append] at hst
    have hfs1 : (mkdirDest fs dest).active = fs.active := rfl
    rcases hst with rfl | rfl | hcp | hdel
    · exact Or.inl hdoc
    · exact Or.inl (hfs1 ▸ hdoc)
    · have hact := (copyPhase_active dest (archivableDocs fs) (mkdirDest fs dest)).2 st hcp
      exact Or.inl (by rw [hact, hfs1]; exact hdoc)
    · cases harch : isArchivable doc.1 with
      | true =>
        have hmem : doc ∈ archivableDocs fs := by
          simp [archivableDocs, List.mem_filter, hdoc, harch]
        obtain ⟨l2, hl2, hml2⟩ := copyPhase_dest_mem dest (archivableDocs fs)
          (mkdirDest fs dest) [] (mkdirDest_lookup fs dest hnone) doc (Or.inr hmem)
        have hsa := (deletePhase_archive (archivableDocs fs)
          ((copyPhase dest (archivableDocs fs) (mkdirDest fs dest)).2)).2 st hdel
        exact Or.inr ⟨l2, by rw [hsa]; exact hl2, hml2⟩
      | false =>
        have hm2 : doc ∈ ((copyPhase dest (archivableDocs fs) (mkdirDest fs dest)).2).active := by
          rw [(copyPhase_active dest (archivableDocs fs) (mkdirDest fs dest)).1, hfs1]
          exact hdoc
        have hk : ∀ d ∈ archivableDocs fs, d.1 ≠ doc.1 := by
          intro d hdm heq
          have : isArchivable d.1 = true := (List.mem_filter.mp hdm).2
          rw [heq, harch] at this
          exact Bool.false_ne_true this
        exact Or.inl ((deletePhase_keeps (archivableDocs fs)
          ((copyPhase dest (archivableDocs fs) (mkdirDest fs dest)).2) doc hm2 hk).1 st hdel)

/-- C1 counterexample: with a well-formed marker recording the name
`alpha` on disk and the current branch `beta`, `create_auto_session`
returns `beta`, not the recorded name — the existing marker's name is
never consulted. -/
theorem create_returns_branch_name_counterexample :
    hasActiveSession fsSessC1 = true ∧
    getSessionName fsSessC1 = some "alpha" ∧
    (createAutoSession sessEnvC1 fsSessC1).1 = "beta" ∧
    (createAutoSession sessEnvC1 fsSessC1).1 ≠ "alpha" := by
  decide

/-- C1 (amended): when a well-formed session marker already exists and
the init collaborator leaves the filesystem unchanged (its contract is
idempotent marker creation), `create_auto_session` performs no file
writes and returns the branch-derived candidate name — which is not read
from the marker and may differ from the recorded one. -/
theorem create_noop_when_session_active (env : SessEnv) (fs : FS)
    (hact : hasActiveSession fs = true) (hinit : env.initEff fs = fs) :
    createAutoSession env fs = (deriveName env, fs) := by
  have hfs1 : (if env.initScriptExists then env.initEff fs else fs) = fs := by
    cases env.initScriptExists <;> simp [hinit]
  cases hl : lookupKey fs.active "task_plan.md" with
  | none => simp [hasActiveSession, hl] at hact
  | some c =>
    have hc : hasActiveContent c = true := by
      simpa [hasActiveSession, hl] using hact
    have hnp : containsSub "[Your task name]" c = false := by
      have := (Bool.and_eq_true _ _).mp hc
      simpa using this.2
    simp [createAutoSession, hfs1, hl, hnp]

/-- C1 witness: the amended no-op theorem applied at a concrete
well-formed marker and the branch `beta`. -/
theorem create_noop_when_session_active_witness :
    createAutoSession sessEnvC1 fsSessC1 = ("beta", fsSessC1) :=
  create_noop_when_session_active sessEnvC1 fsSessC1 (by decide) rfl

/-- C9: a marker whose text mentions `# Task:` only mid-line makes
`has_active_session` report an active session while `get_session_name`
finds no name, so `activate` and `status` can report an active session
with no name. -/
theorem active_session_without_name :
    hasActiveContent "x# Task: y" = true ∧
    sessionNameOfContent "x# Task: y" = none ∧
    hasActiveSession fsSessC9 = true ∧
    getSessionName fsSessC9 = none := by
  decide

/-- C10: with a session active, the external archive script failing, and
the dated archive destination for the current date and session name
already present, `archive_session` reports failure and leaves the whole
filesystem — in particular the active-session directory — unchanged: no
document is copied and none is deleted. -/
theorem archive_already_archived_unchanged (env : ArchEnv) (fs : FS)
    (hact : hasActiveSession fs = true) (hse : env.scriptExists = true)
    (hsf : env.scriptOk = false)
    (hdest : (lookupKey fs.archive
      (destName env.dateDashed (getSessionName fs))).isSome = true) :
    archiveSession env fs = (false, fs) := by
  simp [archiveSession, hact, hse, hsf, fallbackArchive, hdest]

/-- C10 witness: the already-archived failure path evaluated on a
concrete state whose destination `2026-10-12_alpha` exists. -/
theorem archive_already_archived_unchanged_witness :
    archiveSession archEnvW fsArch10 = (false, fsArch10) :=
  archive_already_archived_unchanged archEnvW fsArch10 (by decide) rfl rfl
    (by decide)

/-- C2 witness: the preservation invariant applied at the crash point
between the copy loop and the delete loop of a concrete archive run —
the document is duplicated, present both in the active directory and in
the destination. -/
theorem archive_never_loses_documents_witness :
    ("plan.md", "c") ∈ stArchW.active ∨
      ∃ l, lookupKey stArchW.archive "d" = some l ∧ ("plan.md", "c") ∈ l :=
  archive_never_loses_documents fsArchW "d" stArchW (by decide) ("plan.md", "c")
    (by decide)

theorem pollLoop_all_alive (env : SigEnv) (pid : Int)
    (ha : ∀ k, env.alive k = true) :
    ∀ n k, pollLoop env pid n k = (alivePolls pid n, false) := by
  intro n
  induction n with
  | zero => intro k; rfl
  | succ n ih => intro k; simp [pollLoop, ha, alivePolls, ih]

/-- C3: for a recorded, alive process that ignores SIGTERM (every
liveness poll still reports it alive) and whose SIGTERM delivery does not
raise, `stop_service` performs the guard probe, sends SIGTERM, runs the
full bounded poll loop — ten probes at fixed 0.1 s intervals — and only
then sends SIGKILL; the pid record is removed in every outcome, also when
SIGKILL itself raises `OSError` (in which case the reported result is
failure, `!killRaises`). -/
theorem stop_escalates_only_after_ten_polls (env : SigEnv) (fs : FS)
    (s : String) (pid : Int) (hp : readPid fs s = some pid) (h0 : pid ≠ 0)
    (ha : ∀ k, env.alive k = true) (ht : env.termRaises = false) :
    stopService env fs s =
      (!env.killRaises, removePid fs s,
        Ev.probe pid :: Ev.sigterm pid ::
          (alivePolls pid 10 ++ [Ev.sigkill pid])) ∧
    lookupKey (stopService env fs s).2.1.pids s = none := by
  have hpoll := pollLoop_all_alive env pid ha 10 1
  have hmain : stopService env fs s =
      (!env.killRaises, removePid fs s,
        Ev.probe pid :: Ev.sigterm pid ::
          (alivePolls pid 10 ++ [Ev.sigkill pid])) := by
    cases hk : env.killRaises <;>
      simp [stopService, hp, h0, ha 0, ht, hpoll, hk]
  refine ⟨hmain, ?_⟩
  rw [hmain]
  exact lookupKey_dropKey fs.pids s

/-- C3 witness: the escalation theorem evaluated on a concrete record
`123` and an environment whose probes all report alive. -/
theorem stop_escalates_only_after_ten_polls_witness :
    stopService stopEnvW fsStopW "web_ui" =
      (true, removePid fsStopW "web_ui",
        Ev.probe 123 :: Ev.sigterm 123 ::
          (alivePolls 123 10 ++ [Ev.sigkill 123])) ∧
    lookupKey (stopService stopEnvW fsStopW "web_ui").2.1.pids "web_ui" =
      none :=
  stop_escalates_only_after_ten_polls stopEnvW fsStopW "web_ui" 123
    (by decide) (by decide) (fun _ => rfl) rfl

/-- C7: stopping a service with no pid record on file succeeds, performs
no signal call of any kind — no liveness probe, no SIGTERM, no SIGKILL —
and leaves the filesystem unchanged. -/
theorem stop_without_record_sends_no_signal (env : SigEnv) (fs : FS)
    (s : String) (h : lookupKey fs.pids s = none) :
    stopService env fs s = (true, fs, []) := by
  have hr : readPid fs s = none := by simp [readPid, h]
  have hd : dropKey fs.pids s = fs.pids := dropKey_eq_of_lookup_none fs.pids s h
  simp [stopService, hr, removePid, hd]

/-- C7 witness: stopping `file_watcher` on a filesystem that has no
record for it. -/
theorem stop_without_record_sends_no_signal_witness :
    stopService stopEnvW fsStopW "file_watcher" = (true, fsStopW, []) :=
  stop_without_record_sends_no_signal stopEnvW fsStopW "file_watcher"
    (by decide)

/-- C8: `read_pid` never raises — it is a total function into
`Option Int`: a missing file, an unreadable file (`IOError`), and
unparsable contents (`ValueError`) all yield `none`, and a file holding
an integer yields exactly that integer. -/
theorem readPid_never_raises (fs : FS) (s : String) :
    (lookupKey fs.pids s = none → readPid fs s = none) ∧
    (lookupKey fs.pids s = some none → readPid fs s = none) ∧
    (∀ c, lookupKey fs.pids s = some (some c) → pyInt (pyStrip c) = none →
      readPid fs s = none) ∧
    (∀ c n, lookupKey fs.pids s = some (some c) →
      pyInt (pyStrip c) = some n → readPid fs s = some n) :=
  ⟨fun h => by simp [readPid, h],
   fun h => by simp [readPid, h],
   fun c h hp => by simp [readPid, h, hp],
   fun c n h hp => by simp [readPid, h, hp]⟩

/-- C8 witness: all four `read_pid` cases evaluated on concrete pid
files — parsable (with surrounding whitespace), unparsable, unreadable,
and missing. -/
theorem readPid_never_raises_witness :
    readPid fsPidW "a" = some 42 ∧ readPid fsPidW "b" = none ∧
    readPid fsPidW "c" = none ∧ readPid fsPidW "d" = none :=
  ⟨(readPid_never_raises fsPidW "a").2.2.2 " 42 " 42 rfl (by decide),
   (readPid_never_raises fsPidW "b").2.2.1 "x12" rfl (by decide),
   (readPid_never_raises fsPidW "c").2.1 rfl,
   (readPid_never_raises fsPidW "d").1 rfl⟩

theorem stopService_state (env : SigEnv) (fs : FS) (s : String) :
    (stopService env fs s).2.1 = removePid fs s := by
  unfold stopService
  cases readPid fs s with
  | none => rfl
  | some pid => dsimp only; split_ifs <;> rfl

/-- C4 counterexample: a `start_service` run whose spawn succeeds with
pid 4242 but whose process is found dead after the settle window reports
failure yet leaves the freshly written pid record on disk — the record of
a process found dead is not deleted. -/
theorem start_dead_after_settle_keeps_record_counterexample :
    (startService startDeadEnv fsEmpty "web_ui" cfgWeb).1 = false ∧
    lookupKey (startService startDeadEnv fsEmpty "web_ui" cfgWeb).2.pids
      "web_ui" = some (some "4242") := by
  decide

/-- C4 (amended): `stop_service` deletes the pid record in every outcome;
but a `start_service` run that finds the freshly spawned process dead
after the settle window reports failure and leaves the pid record it just
wrote in place rather than deleting it. -/
theorem pid_record_lifecycle (env : SigEnv) (fs : FS) (s : String)
    (senv : StartEnv) (fs2 : FS) (s2 : String) (cfg : Config)
    (hnr : readPid fs2 s2 = none) (hsp : senv.spawnRaises = false)
    (hdead : senv.spawnedAlive = false) :
    lookupKey (stopService env fs s).2.1.pids s = none ∧
    (startService senv fs2 s2 cfg).1 = false ∧
    lookupKey (startService senv fs2 s2 cfg).2.pids s2 =
      some (some (toString senv.spawnedPid)) := by
  refine ⟨?_, ?_, ?_⟩
  · rw [stopService_state]
    exact lookupKey_dropKey fs.pids s
  · simp [startService, startService.startSpawn, hnr, hsp, hdead]
  · simp [startService, startService.startSpawn, hnr, hsp, writePid]
    exact lookupKey_putKey_self _ s2 _

/-- C4 witness: the amended lifecycle applied to a concrete stop of a
recorded service and a concrete start whose fresh process dies in the
settle window. -/
theorem pid_record_lifecycle_witness :
    lookupKey (stopService stopEnvW fsStopW "web_ui").2.1.pids "web_ui" =
      none ∧
    (startService startDeadEnv fsEmpty "web_ui" cfgWeb).1 = false ∧
    lookupKey (startService startDeadEnv fsEmpty "web_ui" cfgWeb).2.pids
      "web_ui" = some (some (toString startDeadEnv.spawnedPid)) :=
  pid_record_lifecycle stopEnvW fsStopW "web_ui" startDeadEnv fsEmpty
    "web_ui" cfgWeb rfl rfl rfl

theorem all_id_false_iff (l : List Bool) : l.all id = false ↔ false ∈ l := by
  induction l with
  | nil => simp
  | cons b l ih => cases b <;> simp [ih]

/-- C5: `activate` exits non-zero precisely when some declared service
start reported failure; the exit code is unchanged under any hook-setup
effect and any archive environment; `deactivate` (where archival runs)
and `status` always exit zero. -/
theorem exit_code_tracks_service_starts (env : OrchEnv) (fs : FS) :
    (mainExit Cmd.activate env fs ≠ 0 ↔ false ∈ startResults env fs) ∧
    (∀ g : FS → FS, ∀ a : ArchEnv,
      mainExit Cmd.activate { env with hookEff := g, arch := a } fs =
        mainExit Cmd.activate env fs) ∧
    mainExit Cmd.deactivate env fs = 0 ∧
    mainExit Cmd.status env fs = 0 := by
  refine ⟨?_, fun g a => rfl, rfl, rfl⟩
  rw [show mainExit Cmd.activate env fs =
      (if (startResults env fs).all id then 0 else 1) from rfl,
    ← all_id_false_iff]
  cases hall : (startResults env fs).all id <;> simp [hall]

/-- C5 witness: exit codes evaluated on a concrete environment in which
every spawned process dies in the settle window: `activate` exits 1,
while `deactivate` and `status` exit 0. -/
theorem exit_code_tracks_service_starts_witness :
    mainExit Cmd.activate orchEnvW fsSessC1 ≠ 0 ∧
    mainExit Cmd.deactivate orchEnvW fsSessC1 = 0 ∧
    mainExit Cmd.status orchEnvW fsSessC1 = 0 :=
  ⟨((exit_code_tracks_service_starts orchEnvW fsSessC1).1).mpr (by decide),
   (exit_code_tracks_service_starts orchEnvW fsSessC1).2.2.1,
   (exit_code_tracks_service_starts orchEnvW fsSessC1).2.2.2⟩

theorem applyOp_of_not_mutates (fs : FS) (op : Op) (h : op.mutates = false) :
    applyOp fs op = fs := by
  cases op <;> first | rfl | simp [Op.mutates] at h

theorem applyOps_of_reads (ops : List Op) (fs : FS)
    (h : ∀ op ∈ ops, op.mutates = false) : applyOps fs ops = fs := by
  induction ops generalizing fs with
  | nil => rfl
  | cons op ops ih =>
    rw [applyOps, applyOp_of_not_mutates fs op (h op (List.mem_cons_self _ _)),
      ih fs (fun o ho => h o (List.mem_cons_of_mem _ ho))]

theorem serviceStatusOps_reads (fs : FS) (s : String) :
    ∀ op ∈ serviceStatusOps fs s, op.mutates = false := by
  intro op hop
  simp only [serviceStatusOps, List.mem_cons] at hop
  rcases hop with rfl | hop
  · rfl
  cases hr : readPid fs s with
  | none => simp [hr] at hop
  | some pid =>
    rw [hr] at hop
    by_cases h0 : pid ≠ 0
    · simp [h0] at hop
      rw [hop]
      rfl
    · simp [h0] at hop

theorem statusOps_reads (env : StatusEnv) (fs : FS) :
    ∀ op ∈ statusOps env fs, op.mutates = false := by
  intro op hop
  simp only [statusOps, List.mem_cons, List.mem_append, List.mem_flatMap]
    at hop
  rcases hop with rfl | ((hop | ⟨p, _, hp⟩) | hop) | ⟨f, _, hf⟩
  · rfl
  · split at hop
    · rcases List.mem_singleton.mp hop with rfl
      rfl
    · simp at hop
  · exact serviceStatusOps_reads fs p.1 op hp
  · split at hop
    · rcases List.mem_singleton.mp hop with rfl
      rfl
    · simp at hop
  · split at hf
    · rcases List.mem_singleton.mp hf with rfl
      rfl
    · simp at hf

/-- C6: `status` is read-only — every persisted-file operation it
performs is a read, and applying its whole operation sequence to any
starting filesystem leaves the filesystem unchanged: it creates, deletes
and writes nothing. -/
theorem status_mutates_nothing (env : StatusEnv) (fs : FS) :
    (∀ op ∈ statusOps env fs, op.mutates = false) ∧
    applyOps fs (statusOps env fs) = fs :=
  ⟨statusOps_reads env fs,
   applyOps_of_reads (statusOps env fs) fs (statusOps_reads env fs)⟩

/-- C6 witness: the read-only property evaluated on a populated concrete
state (active session, recorded pid, knowledge file). -/
theorem status_mutates_nothing_witness :
    applyOps fsStatusW (statusOps envStatusW fsStatusW) = fsStatusW :=
  (status_mutates_nothing envStatusW fsStatusW).2

end ContextEngine
